import Mathlib

/-!
Verification of the layered-configuration / streaming top-K core shared by the
repository's `dirscan` and `logsum` tools.

The definitions below are a shallow embedding of:
  * `python-day24/toolkit.py` — `parse_provided_options`, `parse_bool`, `get_env`;
  * `python-day26/dirscan.py` — `apply_config`, `apply_env`,
    `resolve_effective_args`, `should_count`, `iter_entries`, `compute_stats`.

Modelling conventions:
  * Python `int` is `Int`; Python `float` values used by the tools are plain
    decimal literals (`timeout`), modelled as `Rat`.
  * `dict[str, str]` maps are association lists (`List (String × String)`)
    looked up with `List.lookup`; `set[str]` is a `List String` built with
    `List.insert` (membership is the only observation the code makes).
  * A Python function that can raise (`int(...)` / `float(...)` on a malformed
    string) returns `Except ResolveError _`; an uncaught exception aborts
    resolution, which is the `.error` case.
  * Filesystem walking (`Path.rglob`, `Path.stat`) is the external collaborator:
    `iter_entries` consumes a pre-recorded list of `WalkItem`s where
    `stat = none` models an `OSError` raised by `path.stat()`.
  * `heapq` is the standard library: the heap list is observed by the code only
    through its length, its root `heap[0]` (the minimum) and its multiset of
    elements (fed to a final `sorted`).  It is therefore represented as a list
    kept sorted ascending, with `heappush`/`heapreplace` implemented by ordered
    insertion, which yields the same length, root and multiset as a binary heap.
-/

open scoped List

/-- Python `s.strip()`: drop whitespace from both ends (modelled on the
character list underlying the string). -/
def py_strip (s : String) : String :=
  ⟨(((s.data.dropWhile Char.isWhitespace).reverse).dropWhile
      Char.isWhitespace).reverse⟩

/-- Python `s.lower()` (ASCII settings vocabulary). -/
def py_lower (s : String) : String :=
  ⟨s.data.map Char.toLower⟩

/-- Python `s.startswith(pre)`. -/
def py_startswith (pre s : String) : Bool :=
  pre.data.isPrefixOf s.data

/-- Python `token.split(sep, 1)[0]`: the characters before the first
occurrence of `sep` (the whole token when `sep` does not occur). -/
def py_split_head (sep : Char) (token : String) : String :=
  ⟨token.data.takeWhile (fun c => !(c == sep))⟩

/-- `toolkit.parse_provided_options`: `token.split("=", 1)[0]` for every token
that starts with `--`, collected into a set (here: a duplicate-free list built
with `List.insert`).  `None` input yields the empty set. -/
def parse_provided_options : Option (List String) → List String
  | none => []
  | some argv =>
      argv.foldl
        (fun provided token =>
          if py_startswith "--" token then
            provided.insert (py_split_head '=' token)
          else provided)
        []

/-- `toolkit.parse_bool`: the fixed truthy/falsey vocabulary, case-insensitive
after stripping; any other string falls through to Python `bool(v)`, which is
`True` exactly when the stripped lowercased string is nonempty. -/
def parse_bool (value : String) : Bool :=
  let v := py_lower (py_strip value)
  if v ∈ (["1", "true", "yes", "y", "on"] : List String) then true
  else if v ∈ (["0", "false", "no", "n", "off"] : List String) then false
  else !(v == "")

/-- Helper for the repeated Python pattern `v is not None and v != ""` applied
to an optional string (used twice inside `toolkit.get_env`, and for the
truthiness test `if v:` on its result). -/
def nonempty_opt (o : Option String) : Option String :=
  match o with
  | some v => if v = "" then none else some v
  | none => none

/-- `toolkit.get_env`: the `.env`-file map wins when it binds `name` to a
nonempty string; otherwise the OS environment is consulted, with the same
empty-string-is-absent rule; otherwise `None`. -/
def get_env (name : String) (env_file osEnv : List (String × String)) :
    Option String :=
  match nonempty_opt (env_file.lookup name) with
  | some v => some v
  | none => nonempty_opt (osEnv.lookup name)

/-- Numeric value of a digit run (helper for the `int()` / `float()` models). -/
def digits_val (s : List Char) : Nat :=
  s.foldl (fun n c => n * 10 + (c.toNat - 48)) 0

/-- Model of Python `int(s)` on decimal literals: strip whitespace, optional
sign, then a nonempty digit run; anything else raises `ValueError` (`none`). -/
def py_int_string (s : String) : Option Int :=
  let t := (py_strip s).data
  let neg := t.take 1 = ['-']
  let ds := if t.take 1 = ['-'] ∨ t.take 1 = ['+'] then t.drop 1 else t
  if ds.length ≠ 0 ∧ ds.all Char.isDigit then
    some (if neg then -(digits_val ds : Int) else (digits_val ds : Int))
  else none

/-- Model of Python `float(s)` on plain decimal literals (optional sign,
digits, optional fractional part); exponent/`inf`/`nan` forms do not occur in
this program's configuration values. -/
def py_float_string (s : String) : Option Rat :=
  let t := (py_strip s).data
  let neg := t.take 1 = ['-']
  let body := if t.take 1 = ['-'] ∨ t.take 1 = ['+'] then t.drop 1 else t
  let signed : Rat → Rat := fun q => if neg then -q else q
  match body.splitOn '.' with
  | [a] =>
      if a.length ≠ 0 ∧ a.all Char.isDigit then some (signed (digits_val a))
      else none
  | [a, b] =>
      if (a.length ≠ 0 ∨ b.length ≠ 0) ∧ a.all Char.isDigit ∧ b.all Char.isDigit then
        some (signed ((digits_val a : Rat) + (digits_val b : Rat) / (10 ^ b.length : Rat)))
      else none
  | _ => none

/-- An uncaught coercion failure (Python `ValueError` from `int()`/`float()`),
carrying the offending raw string. -/
inductive ResolveError where
  | valueError (raw : String)
deriving Repr, DecidableEq

/-- `int(v)` for an environment string, as it appears in `apply_env`. -/
def py_int_exc (s : String) : Except ResolveError Int :=
  match py_int_string s with
  | some n => .ok n
  | none => .error (.valueError s)

/-- `float(v)` for an environment string, as it appears in `apply_env`. -/
def py_float_exc (s : String) : Except ResolveError Rat :=
  match py_float_string s with
  | some q => .ok q
  | none => .error (.valueError s)

/-!
## The dirscan settings record and the config/env merge (`python-day26/dirscan.py`)
-/

/-- A value occurring in the parsed JSON config object, as the shapes actually
used by the tool's config files (`{"directory": "/tmp", "top": 20,
"relative": true}`): integers, strings and booleans.  JSON parsing itself is
the out-of-scope collaborator. -/
inductive CfgVal where
  | num (n : Int)
  | str (s : String)
  | boolean (b : Bool)
deriving Repr, DecidableEq

/-- Python `str(x)` on a config value. -/
def py_str_val : CfgVal → String
  | .num n => toString n
  | .str s => s
  | .boolean b => if b then "True" else "False"

/-- Python `int(x)` on a config value (raises on a malformed string). -/
def py_int_val : CfgVal → Except ResolveError Int
  | .num n => .ok n
  | .str s => py_int_exc s
  | .boolean b => .ok (if b then 1 else 0)

/-- Python `float(x)` on a config value (raises on a malformed string). -/
def py_float_val : CfgVal → Except ResolveError Rat
  | .num n => .ok (n : Rat)
  | .str s => py_float_exc s
  | .boolean b => .ok (if b then 1 else 0)

/-- Python `bool(x)` on a config value (truthiness). -/
def py_bool_val : CfgVal → Bool
  | .num n => n != 0
  | .str s => s != ""
  | .boolean b => b

/-- The parsed JSON config object, a flat string-keyed map. -/
def Cfg : Type := List (String × CfgVal)

/-- The `argparse.Namespace` produced by `dirscan.parse_args`: every setting
with its CLI-resolved value.  `Path` values are their string form; `None`
defaults are `Option`. -/
structure Args where
  directory : Option String
  mode : String
  top : Int
  human : Bool
  verbose : Bool
  json : Bool
  min_size : Int
  relative : Bool
  post : String
  timeout : Rat
  config : Option String
  out : Option String
  env_file : Option String
deriving Repr, DecidableEq

/-- The defaults declared in `dirscan.parse_args` (an invocation with no
arguments at all). -/
def default_args : Args :=
  { directory := none, mode := "file", top := 10, human := false,
    verbose := false, json := false, min_size := 0, relative := false,
    post := "", timeout := 10, config := none, out := none, env_file := none }

/-! Each `cfg_*` / `env_*` definition below is one guarded assignment of
`dirscan.apply_config` / `dirscan.apply_env`, phrased as a record update whose
new field value is the old one when the guard skips. -/

/-- `if args.directory is None and has("directory"): args.directory = Path(str(cfg["directory"]))` -/
def cfg_directory (a : Args) (cfg : Cfg) : Args :=
  { a with directory :=
      if a.directory = none then
        match cfg.lookup "directory" with
        | some v => some (py_str_val v)
        | none => a.directory
      else a.directory }

/-- `if "--mode" not in provided and has("mode"): args.mode = str(cfg["mode"])` -/
def cfg_mode (a : Args) (cfg : Cfg) (provided : List String) : Args :=
  { a with mode :=
      if "--mode" ∈ provided then a.mode
      else
        match cfg.lookup "mode" with
        | some v => py_str_val v
        | none => a.mode }

/-- `if "--top" not in provided and has("top"): args.top = int(cfg["top"])` -/
def cfg_top (a : Args) (cfg : Cfg) (provided : List String) :
    Except ResolveError Args :=
  if "--top" ∈ provided then .ok a
  else
    match cfg.lookup "top" with
    | some v => do
        let n ← py_int_val v
        .ok { a with top := n }
    | none => .ok a

/-- `if "--min-size" not in provided and has("min_size"): args.min_size = int(cfg["min_size"])` -/
def cfg_min_size (a : Args) (cfg : Cfg) (provided : List String) :
    Except ResolveError Args :=
  if "--min-size" ∈ provided then .ok a
  else
    match cfg.lookup "min_size" with
    | some v => do
        let n ← py_int_val v
        .ok { a with min_size := n }
    | none => .ok a

/-- `if "--timeout" not in provided and has("timeout"): args.timeout = float(cfg["timeout"])` -/
def cfg_timeout (a : Args) (cfg : Cfg) (provided : List String) :
    Except ResolveError Args :=
  if "--timeout" ∈ provided then .ok a
  else
    match cfg.lookup "timeout" with
    | some v => do
        let q ← py_float_val v
        .ok { a with timeout := q }
    | none => .ok a

/-- `if "--post" not in provided and has("post"): args.post = str(cfg["post"])` -/
def cfg_post (a : Args) (cfg : Cfg) (provided : List String) : Args :=
  { a with post :=
      if "--post" ∈ provided then a.post
      else
        match cfg.lookup "post" with
        | some v => py_str_val v
        | none => a.post }

/-- `if "--out" not in provided and has("out"): args.out = Path(str(cfg["out"]))` -/
def cfg_out (a : Args) (cfg : Cfg) (provided : List String) : Args :=
  { a with out :=
      if "--out" ∈ provided then a.out
      else
        match cfg.lookup "out" with
        | some v => some (py_str_val v)
        | none => a.out }

/-- `if "--human" not in provided and has("human"): args.human = bool(cfg["human"])` -/
def cfg_human (a : Args) (cfg : Cfg) (provided : List String) : Args :=
  { a with human :=
      if "--human" ∈ provided then a.human
      else
        match cfg.lookup "human" with
        | some v => py_bool_val v
        | none => a.human }

/-- `if "--verbose" not in provided and has("verbose"): args.verbose = bool(cfg["verbose"])` -/
def cfg_verbose (a : Args) (cfg : Cfg) (provided : List String) : Args :=
  { a with verbose :=
      if "--verbose" ∈ provided then a.verbose
      else
        match cfg.lookup "verbose" with
        | some v => py_bool_val v
        | none => a.verbose }

/-- `if "--json" not in provided and has("json"): args.json = bool(cfg["json"])` -/
def cfg_json (a : Args) (cfg : Cfg) (provided : List String) : Args :=
  { a with json :=
      if "--json" ∈ provided then a.json
      else
        match cfg.lookup "json" with
        | some v => py_bool_val v
        | none => a.json }

/-- `if "--relative" not in provided and has("relative"): args.relative = bool(cfg["relative"])` -/
def cfg_relative (a : Args) (cfg : Cfg) (provided : List String) : Args :=
  { a with relative :=
      if "--relative" ∈ provided then a.relative
      else
        match cfg.lookup "relative" with
        | some v => py_bool_val v
        | none => a.relative }

/-- `dirscan.apply_config`: the guarded assignments in source order; an
uncaught `ValueError` from `int`/`float` aborts (the `Except` error). -/
def apply_config (a : Args) (cfg : Cfg) (provided : List String) :
    Except ResolveError Args := do
  let a := cfg_directory a cfg
  let a := cfg_mode a cfg provided
  let a ← cfg_top a cfg provided
  let a ← cfg_min_size a cfg provided
  let a ← cfg_timeout a cfg provided
  let a := cfg_post a cfg provided
  let a := cfg_out a cfg provided
  let a := cfg_human a cfg provided
  let a := cfg_verbose a cfg provided
  let a := cfg_json a cfg provided
  let a := cfg_relative a cfg provided
  .ok a

/-! `apply_env` steps, in source order.  Each non-boolean step tests the
`get_env` result with Python truthiness (`if v:`), modelled by
`nonempty_opt`; the boolean steps test `v is not None`. -/

/-- `if "--config" not in provided and args.config is None: ... DIRSCAN_CONFIG` -/
def env_config (a : Args) (ef os : List (String × String)) (provided : List String) : Args :=
  { a with config :=
      if "--config" ∉ provided ∧ a.config = none then
        match nonempty_opt (get_env "DIRSCAN_CONFIG" ef os) with
        | some v => some v
        | none => a.config
      else a.config }

/-- `if not directory_from_cli: ... DIRSCAN_DIRECTORY` -/
def env_directory (a : Args) (ef os : List (String × String)) (directory_from_cli : Bool) : Args :=
  { a with directory :=
      if directory_from_cli then a.directory
      else
        match nonempty_opt (get_env "DIRSCAN_DIRECTORY" ef os) with
        | some v => some v
        | none => a.directory }

/-- `if "--mode" not in provided: ... args.mode = v` -/
def env_mode (a : Args) (ef os : List (String × String)) (provided : List String) : Args :=
  { a with mode :=
      if "--mode" ∈ provided then a.mode
      else
        match nonempty_opt (get_env "DIRSCAN_MODE" ef os) with
        | some v => v
        | none => a.mode }

/-- `if "--top" not in provided: ... args.top = int(v)` -/
def env_top (a : Args) (ef os : List (String × String)) (provided : List String) :
    Except ResolveError Args :=
  if "--top" ∈ provided then .ok a
  else
    match nonempty_opt (get_env "DIRSCAN_TOP" ef os) with
    | some v => do
        let n ← py_int_exc v
        .ok { a with top := n }
    | none => .ok a

/-- `if "--min-size" not in provided: ... args.min_size = int(v)` -/
def env_min_size (a : Args) (ef os : List (String × String)) (provided : List String) :
    Except ResolveError Args :=
  if "--min-size" ∈ provided then .ok a
  else
    match nonempty_opt (get_env "DIRSCAN_MIN_SIZE" ef os) with
    | some v => do
        let n ← py_int_exc v
        .ok { a with min_size := n }
    | none => .ok a

/-- `if "--timeout" not in provided: ... args.timeout = float(v)` -/
def env_timeout (a : Args) (ef os : List (String × String)) (provided : List String) :
    Except ResolveError Args :=
  if "--timeout" ∈ provided then .ok a
  else
    match nonempty_opt (get_env "DIRSCAN_TIMEOUT" ef os) with
    | some v => do
        let q ← py_float_exc v
        .ok { a with timeout := q }
    | none => .ok a

/-- `if "--post" not in provided: ... args.post = v` -/
def env_post (a : Args) (ef os : List (String × String)) (provided : List String) : Args :=
  { a with post :=
      if "--post" ∈ provided then a.post
      else
        match nonempty_opt (get_env "DIRSCAN_POST" ef os) with
        | some v => v
        | none => a.post }

/-- `if "--out" not in provided: ... args.out = Path(v)` -/
def env_out (a : Args) (ef os : List (String × String)) (provided : List String) : Args :=
  { a with out :=
      if "--out" ∈ provided then a.out
      else
        match nonempty_opt (get_env "DIRSCAN_OUT" ef os) with
        | some v => some v
        | none => a.out }

/-- `if "--human" not in provided: v = get_env(...); if v is not None: args.human = parse_bool(v)` -/
def env_human (a : Args) (ef os : List (String × String)) (provided : List String) : Args :=
  { a with human :=
      if "--human" ∈ provided then a.human
      else
        match get_env "DIRSCAN_HUMAN" ef os with
        | some v => parse_bool v
        | none => a.human }

/-- `if "--verbose" not in provided: ... args.verbose = parse_bool(v)` -/
def env_verbose (a : Args) (ef os : List (String × String)) (provided : List String) : Args :=
  { a with verbose :=
      if "--verbose" ∈ provided then a.verbose
      else
        match get_env "DIRSCAN_VERBOSE" ef os with
        | some v => parse_bool v
        | none => a.verbose }

/-- `if "--json" not in provided: ... args.json = parse_bool(v)` -/
def env_json (a : Args) (ef os : List (String × String)) (provided : List String) : Args :=
  { a with json :=
      if "--json" ∈ provided then a.json
      else
        match get_env "DIRSCAN_JSON" ef os with
        | some v => parse_bool v
        | none => a.json }

/-- `if "--relative" not in provided: ... args.relative = parse_bool(v)` -/
def env_relative (a : Args) (ef os : List (String × String)) (provided : List String) : Args :=
  { a with relative :=
      if "--relative" ∈ provided then a.relative
      else
        match get_env "DIRSCAN_RELATIVE" ef os with
        | some v => parse_bool v
        | none => a.relative }

/-- `dirscan.apply_env`: the guarded assignments in source order (config path,
positional directory, then the flag settings); an uncaught `ValueError` from
`int`/`float` aborts. -/
def apply_env (a : Args) (ef os : List (String × String)) (provided : List String)
    (directory_from_cli : Bool) : Except ResolveError Args := do
  let a := env_config a ef os provided
  let a := env_directory a ef os directory_from_cli
  let a := env_mode a ef os provided
  let a ← env_top a ef os provided
  let a ← env_min_size a ef os provided
  let a ← env_timeout a ef os provided
  let a := env_post a ef os provided
  let a := env_out a ef os provided
  let a := env_human a ef os provided
  let a := env_verbose a ef os provided
  let a := env_json a ef os provided
  let a := env_relative a ef os provided
  .ok a

/-- The config-path-from-env step at the top of `resolve_effective_args`
(`if args.config is None and "--config" not in provided: v =
toolkit.get_env("DIRSCAN_CONFIG", env_file); if v: args.config = Path(v)`). -/
def resolve_config_path (a : Args) (ef os : List (String × String))
    (provided : List String) : Args :=
  { a with config :=
      if a.config = none ∧ "--config" ∉ provided then
        match nonempty_opt (get_env "DIRSCAN_CONFIG" ef os) with
        | some v => some v
        | none => a.config
      else a.config }

/-- `dirscan.resolve_effective_args`, with the I/O collaborators abstracted:
`args` is the `parse_args(argv)` namespace, `efc` the mapping an
`--env-file` would load, `os` the OS environment, and `configs` the mapping
from a config-file path to the map `load_config` yields for it (`load_config`
degrades to an empty map on a missing/corrupt file, so `configs` is total).
Steps in source order: capture `directory_from_cli`, compute `provided`, load
the `.env` file only when `--env-file` was given, resolve the config path from
the env source, apply the config file (lowest precedence), then apply env. -/
def resolve_effective_args (args : Args) (argv : Option (List String))
    (efc os : List (String × String)) (configs : String → Cfg) :
    Except ResolveError Args := do
  let directory_from_cli := args.directory.isSome
  let provided := parse_provided_options argv
  let env_file : List (String × String) :=
    match args.env_file with
    | some _ => efc
    | none => []
  let args := resolve_config_path args env_file os provided
  let args ← match args.config with
    | some p => apply_config args (configs p) provided
    | none => .ok args
  apply_env args env_file os provided directory_from_cli

/-!
## The dirscan streaming core (`iter_entries` / `compute_stats`)
-/

/-- `dirscan.Entry`: one scored item — a path (the tie-breaking secondary key
is `str(e.path)`) and its byte size (the score). -/
structure Entry where
  path : String
  size : Int
deriving Repr, DecidableEq

/-- The ascending order the heap maintains on the tuples
`(e.size, str(e.path), e)`.  When both the size and the path string agree the
two `Entry` values themselves are equal, so Python's element-wise tuple
comparison never reaches the third component with distinct operands; the tuple
order is exactly the lexicographic order on `(size, path)`. -/
def heap_le (a b : Entry) : Prop :=
  a.size < b.size ∨ (a.size = b.size ∧ a.path ≤ b.path)

instance : DecidableRel heap_le := fun a b => by
  unfold heap_le; infer_instance

/-- Python's `item > heap[0]` on the heap tuples: strict lexicographic
(greater size wins; on equal size the greater path string wins; on full
equality the tuples compare equal, hence not greater). -/
def item_gt (a b : Entry) : Prop :=
  b.size < a.size ∨ (b.size = a.size ∧ b.path < a.path)

instance : DecidableRel item_gt := fun a b => by
  unfold item_gt; infer_instance

/-- `heapq.heappush(heap, item)`: the heap list with `item` added; in the
sorted-list representation this is ordered insertion. -/
def heappush (heap : List Entry) (e : Entry) : List Entry :=
  List.orderedInsert heap_le e heap

/-- `heapq.heapreplace(heap, item)`: pop the root (the minimum, at index 0)
and push `item`. -/
def heapreplace (heap : List Entry) (e : Entry) : List Entry :=
  List.orderedInsert heap_le e heap.tail

/-- The per-item body of the loop in `dirscan.compute_stats` acting on the
heap: skip entirely when `top_n <= 0`; push while fewer than `top_n` items are
held; otherwise replace the root exactly when `item > heap[0]`.  (The `[]`
case of the match is unreachable: it would require `0 < top_n ≤ len(heap) = 0`.) -/
def offer (top_n : Int) (heap : List Entry) (e : Entry) : List Entry :=
  if top_n ≤ 0 then heap
  else if (heap.length : Int) < top_n then heappush heap e
  else
    match heap with
    | [] => heap
    | root :: _ => if item_gt e root then heapreplace heap e else heap

/-- One iteration of the loop in `dirscan.compute_stats`: bump the count, add
the size to the running total, and offer the entry to the bounded heap. -/
def scan_step (top_n : Int) (st : Nat × Int × List Entry) (e : Entry) :
    Nat × Int × List Entry :=
  (st.1 + 1, st.2.1 + e.size, offer top_n st.2.2 e)

/-- The final presentation order `sorted(heap, key=lambda t: (-t[0], t[1]))`:
descending size, then ascending path. -/
def pres_le (a b : Entry) : Bool :=
  decide (b.size < a.size ∨ (a.size = b.size ∧ a.path ≤ b.path))

/-- `dirscan.Stats`: count of entries seen, total bytes, and the finalized
top list. -/
structure Stats where
  count : Nat
  total_bytes : Int
  top : List Entry
deriving Repr, DecidableEq

/-- `dirscan.compute_stats`: one pass over the entries maintaining
count/total and the bounded min-heap, then the final presentation sort. -/
def compute_stats (entries : List Entry) (top_n : Int) : Stats :=
  let st := entries.foldl (scan_step top_n) (0, 0, [])
  { count := st.1, total_bytes := st.2.1, top := (st.2.2).mergeSort pres_le }

/-- One filesystem object yielded by `root.rglob("*")`, with the answers the
collaborator filesystem would give: `is_file`/`is_dir`, and `stat = none` when
`path.stat()` raises `OSError`. -/
structure WalkItem where
  path : String
  is_file : Bool
  is_dir : Bool
  stat : Option Int
deriving Repr, DecidableEq

/-- `dirscan.should_count`. -/
def should_count (w : WalkItem) (mode : String) : Bool :=
  if mode = "file" then w.is_file
  else if mode = "all" then !w.is_dir
  else false

/-- The per-item body of the loop in `dirscan.iter_entries`: skip items the
mode filter rejects, skip an item whose `stat()` raised `OSError`
(`stat = none`), skip sizes below `min_size`, otherwise yield the entry. -/
def entry_of (mode : String) (min_size : Int) (w : WalkItem) : Option Entry :=
  if should_count w mode then
    match w.stat with
    | some size => if size < min_size then none else some ⟨w.path, size⟩
    | none => none
  else none

/-- `dirscan.iter_entries` over a pre-recorded walk: a `stat` failure skips
just that item and iteration continues with the rest. -/
def iter_entries (walk : List WalkItem) (mode : String) (min_size : Int) :
    List Entry :=
  walk.filterMap (entry_of mode min_size)

/-!
## Order facts about the heap comparison
-/

theorem heap_le_refl (a : Entry) : heap_le a a := Or.inr ⟨rfl, le_refl _⟩

theorem heap_le_trans {a b c : Entry} (h1 : heap_le a b) (h2 : heap_le b c) :
    heap_le a c := by
  rcases h1 with h1 | ⟨e1, p1⟩ <;> rcases h2 with h2 | ⟨e2, p2⟩
  · exact Or.inl (lt_trans h1 h2)
  · exact Or.inl (e2 ▸ h1)
  · exact Or.inl (e1 ▸ h2)
  · exact Or.inr ⟨e1.trans e2, p1.trans p2⟩

theorem heap_le_total (a b : Entry) : heap_le a b ∨ heap_le b a := by
  rcases lt_trichotomy a.size b.size with h | h | h
  · exact Or.inl (Or.inl h)
  · rcases le_total a.path b.path with hp | hp
    · exact Or.inl (Or.inr ⟨h, hp⟩)
    · exact Or.inr (Or.inr ⟨h.symm, hp⟩)
  · exact Or.inr (Or.inl h)

instance : IsTrans Entry heap_le := ⟨fun _ _ _ => heap_le_trans⟩

instance : IsTotal Entry heap_le := ⟨heap_le_total⟩

theorem not_item_gt_iff {a b : Entry} : ¬ item_gt a b ↔ heap_le a b := by
  unfold item_gt heap_le
  constructor
  · intro h
    rcases lt_trichotomy a.size b.size with hs | hs | hs
    · exact Or.inl hs
    · refine Or.inr ⟨hs, le_of_not_lt fun hp => h (Or.inr ⟨hs.symm, hp⟩)⟩
    · exact absurd (Or.inl hs) h
  · rintro (h | ⟨he, hp⟩) (hg | ⟨he2, hp2⟩)
    · exact absurd hg (lt_asymm h)
    · exact absurd he2 (ne_of_gt h)
    · exact absurd (he ▸ hg) (lt_irrefl _)
    · exact absurd hp2 (not_lt_of_le hp)

theorem item_gt_heap_le {a b : Entry} (h : item_gt a b) : heap_le b a := by
  rcases h with h | ⟨he, hp⟩
  · exact Or.inl h
  · exact Or.inr ⟨he, le_of_lt hp⟩

theorem heap_le_size {a b : Entry} (h : heap_le a b) : a.size ≤ b.size := by
  rcases h with h | ⟨he, _⟩
  · exact le_of_lt h
  · exact le_of_eq he

/-!
## The bounded top-K invariant

`heap_inv K seen heap` is the state invariant of the loop in `compute_stats`
after consuming `seen`: the heap is sorted ascending, holds exactly
`min K |seen|` items, and splits `seen` (as a multiset) into the heap plus
discarded items, every discarded item being `heap_le` every held one.
-/

def heap_inv (K : Int) (seen heap : List Entry) : Prop :=
  heap.Sorted heap_le ∧
  (heap.length : Int) = min K (seen.length : Int) ∧
  ∃ disc : List Entry, seen.Perm (heap ++ disc) ∧
    ∀ d ∈ disc, ∀ h ∈ heap, heap_le d h

theorem heap_inv_nil {K : Int} (hK : 0 ≤ K) : heap_inv K [] [] := by
  refine ⟨List.sorted_nil, ?_, [], List.Perm.refl _, by simp⟩
  simp [min_eq_right hK]

theorem min_succ_of_lt {K L n : Int} (hn : 0 ≤ n) (h : L = min K n) (hlt : L < K) :
    L + 1 = min K (n + 1) := by
  rcases le_total K n with h' | h'
  · rw [min_eq_left h'] at h; omega
  · rw [min_eq_right h'] at h
    rw [min_eq_right (by omega)]
    omega

theorem eq_min_of_not_lt {K L n : Int} (h : L = min K n) (hlt : ¬ L < K) :
    L = K ∧ K ≤ n := by
  rcases le_total K n with h' | h'
  · rw [min_eq_left h'] at h; exact ⟨h, h'⟩
  · rw [min_eq_right h'] at h; omega

theorem heap_inv_offer {K : Int} (hK : 0 ≤ K) {seen heap : List Entry} (e : Entry)
    (hinv : heap_inv K seen heap) : heap_inv K (seen ++ [e]) (offer K heap e) := by
  obtain ⟨hsort, hlen, disc, hperm, hdisc⟩ := hinv
  unfold offer
  by_cases h0 : K ≤ 0
  · rw [if_pos h0]
    have hK0 : K = 0 := le_antisymm h0 hK
    subst hK0
    have hhe : heap = [] := by
      have : (heap.length : Int) = 0 := by
        rw [hlen, min_eq_left (by positivity)]
      exact List.eq_nil_of_length_eq_zero (by exact_mod_cast this)
    subst hhe
    refine ⟨hsort, ?_, disc ++ [e], ?_, by simp⟩
    · simp
      positivity
    · simpa using hperm.append_right [e]
  · rw [if_neg h0]
    by_cases hlt : (heap.length : Int) < K
    · rw [if_pos hlt]
      unfold heappush
      have hdisc_nil : disc = [] := by
        have hL := hperm.length_eq
        rw [List.length_append] at hL
        have : (heap.length : Int) = (seen.length : Int) := by
          rcases le_total K (seen.length : Int) with h' | h'
          · rw [min_eq_left h'] at hlen; omega
          · rw [min_eq_right h'] at hlen; exact hlen
        have : disc.length = 0 := by omega
        exact List.eq_nil_of_length_eq_zero this
      subst hdisc_nil
      rw [List.append_nil] at hperm
      refine ⟨List.Sorted.orderedInsert e heap hsort, ?_, [], ?_, by simp⟩
      · rw [List.orderedInsert_length]
        simp only [List.length_append, List.length_cons, List.length_nil]
        push_cast
        exact min_succ_of_lt (by positivity) hlen hlt
      · rw [List.append_nil]
        calc seen ++ [e] ~ heap ++ [e] := hperm.append_right [e]
          _ ~ e :: heap := List.perm_append_singleton e heap
          _ ~ List.orderedInsert heap_le e heap :=
              (List.perm_orderedInsert heap_le e heap).symm
    · rw [if_neg hlt]
      obtain ⟨hKlen, hKn⟩ := eq_min_of_not_lt hlen hlt
      rcases heap with _ | ⟨root, rest⟩
      · exfalso
        simp only [List.length_nil, Nat.cast_zero] at hKlen
        omega
      · show heap_inv K (seen ++ [e])
          (if item_gt e root then heapreplace (root :: rest) e else root :: rest)
        have hroot_rest : ∀ x ∈ rest, heap_le root x :=
          List.rel_of_sorted_cons hsort
        by_cases hgt : item_gt e root
        · rw [if_pos hgt]
          unfold heapreplace
          have hle_root_e : heap_le root e := item_gt_heap_le hgt
          refine ⟨List.Sorted.orderedInsert e rest (List.sorted_cons.mp hsort).2,
            ?_, disc ++ [root], ?_, ?_⟩
          · rw [List.tail_cons, List.orderedInsert_length]
            simp only [List.length_cons, List.length_append, List.length_nil] at hKlen ⊢
            push_cast at hKlen ⊢
            rw [min_eq_left (by omega)]
            omega
          · rw [List.tail_cons]
            calc seen ++ [e]
                ~ ((root :: rest) ++ disc) ++ [e] := hperm.append_right [e]
              _ ~ e :: ((root :: rest) ++ disc) :=
                  List.perm_append_singleton e _
              _ = e :: root :: (rest ++ disc) := by simp
              _ ~ e :: (rest ++ disc) ++ [root] := by
                  refine List.Perm.cons e ?_
                  exact (List.perm_append_singleton root (rest ++ disc)).symm
              _ = (e :: rest) ++ (disc ++ [root]) := by simp
              _ ~ List.orderedInsert heap_le e rest ++ (disc ++ [root]) :=
                  ((List.perm_orderedInsert heap_le e rest).symm).append_right _
          · intro d hd h hh
            rw [List.tail_cons, List.mem_orderedInsert] at hh
            rw [List.mem_append, List.mem_singleton] at hd
            rcases hd with hd | hd
            · have hdr : heap_le d root := hdisc d hd root (List.mem_cons_self _ _)
              rcases hh with rfl | hh
              · exact heap_le_trans hdr hle_root_e
              · exact hdisc d hd h (List.mem_cons_of_mem _ hh)
            · subst hd
              rcases hh with rfl | hh
              · exact hle_root_e
              · exact hroot_rest h hh
        · rw [if_neg hgt]
          have hle_e_root : heap_le e root := not_item_gt_iff.mp hgt
          refine ⟨hsort, ?_, disc ++ [e], ?_, ?_⟩
          · simp only [List.length_cons, List.length_append, List.length_nil] at hKlen ⊢
            push_cast at hKlen ⊢
            rw [min_eq_left (by omega)]
            omega
          · calc seen ++ [e]
                ~ ((root :: rest) ++ disc) ++ [e] := hperm.append_right [e]
              _ = (root :: rest) ++ (disc ++ [e]) := by simp
          · intro d hd h hh
            rw [List.mem_append, List.mem_singleton] at hd
            rcases hd with hd | hd
            · exact hdisc d hd h hh
            · subst hd
              rcases List.mem_cons.mp hh with rfl | hh2
              · exact hle_e_root
              · exact heap_le_trans hle_e_root (hroot_rest h hh2)

theorem heap_inv_foldl {K : Int} (hK : 0 ≤ K) :
    ∀ (l seen heap : List Entry), heap_inv K seen heap →
      heap_inv K (seen ++ l) (l.foldl (offer K) heap)
  | [], seen, heap, h => by simpa using h
  | e :: l, seen, heap, h => by
    have h2 := heap_inv_foldl hK l (seen ++ [e]) (offer K heap e)
      (heap_inv_offer hK e h)
    simpa [List.append_assoc] using h2

theorem scan_step_foldl (K : Int) :
    ∀ (l : List Entry) (c : Nat) (t : Int) (h : List Entry),
      l.foldl (scan_step K) (c, t, h)
        = (c + l.length, t + (l.map Entry.size).sum, l.foldl (offer K) h)
  | [], c, t, h => by simp
  | e :: l, c, t, h => by
    simp only [List.foldl_cons, scan_step, List.length_cons, List.map_cons,
      List.sum_cons]
    rw [scan_step_foldl K l]
    refine Prod.ext ?_ (Prod.ext ?_ rfl)
    · simp; omega
    · simp; ring

theorem compute_stats_eq (entries : List Entry) (K : Int) :
    compute_stats entries K =
      { count := entries.length,
        total_bytes := (entries.map Entry.size).sum,
        top := (entries.foldl (offer K) []).mergeSort pres_le } := by
  unfold compute_stats
  rw [scan_step_foldl]
  simp

/-!
## Presentation-order facts
-/

/-- The propositional form of `pres_le`: descending size, ascending path on
ties. -/
def pres_rel (a b : Entry) : Prop :=
  b.size < a.size ∨ (a.size = b.size ∧ a.path ≤ b.path)

theorem pres_le_iff {a b : Entry} : pres_le a b = true ↔ pres_rel a b := by
  simp [pres_le, pres_rel]

theorem pres_rel_trans {a b c : Entry} (h1 : pres_rel a b) (h2 : pres_rel b c) :
    pres_rel a c := by
  rcases h1 with h1 | ⟨e1, p1⟩ <;> rcases h2 with h2 | ⟨e2, p2⟩
  · exact Or.inl (lt_trans h2 h1)
  · exact Or.inl (e2 ▸ h1)
  · exact Or.inl (e1 ▸ h2)
  · exact Or.inr ⟨e1.trans e2, p1.trans p2⟩

theorem pres_rel_total (a b : Entry) : pres_rel a b ∨ pres_rel b a := by
  rcases lt_trichotomy a.size b.size with h | h | h
  · exact Or.inr (Or.inl h)
  · rcases le_total a.path b.path with hp | hp
    · exact Or.inl (Or.inr ⟨h, hp⟩)
    · exact Or.inr (Or.inr ⟨h.symm, hp⟩)
  · exact Or.inl (Or.inl h)

theorem pres_le_trans_eq {a b c : Entry} (hab : pres_le a b = true)
    (hbc : pres_le b c = true) : pres_le a c = true :=
  pres_le_iff.mpr (pres_rel_trans (pres_le_iff.mp hab) (pres_le_iff.mp hbc))

theorem pres_le_total_eq (a b : Entry) : (pres_le a b || pres_le b a) = true := by
  rcases pres_rel_total a b with h | h
  · simp [pres_le_iff.mpr h]
  · simp [pres_le_iff.mpr h]

instance : IsAntisymm Entry pres_rel where
  antisymm a b h1 h2 := by
    rcases h1 with h1 | ⟨e1, p1⟩ <;> rcases h2 with h2 | ⟨e2, p2⟩
    · exact absurd h1 (lt_asymm h2)
    · omega
    · omega
    · have hp : a.path = b.path := le_antisymm p1 p2
      cases a
      cases b
      simp_all

/-- The final `sorted(...)` call always yields a `pres_rel`-sorted list. -/
theorem mergeSort_pres_sorted (l : List Entry) :
    (l.mergeSort pres_le).Pairwise pres_rel := by
  have hs := @List.sorted_mergeSort Entry pres_le
    (fun a b c hab hbc => pres_le_trans_eq hab hbc)
    (fun a b => pres_le_total_eq a b) l
  exact hs.imp fun h => pres_le_iff.mp h

/-- Since `pres_rel` is antisymmetric, the sort's output is the unique sorted
permutation: evaluation lemma for concrete inputs. -/
theorem mergeSort_pres_eval {l expected : List Entry} (hperm : l ~ expected)
    (hsort : expected.Pairwise pres_rel) : l.mergeSort pres_le = expected :=
  List.eq_of_perm_of_sorted ((List.mergeSort_perm l pres_le).trans hperm)
    (mergeSort_pres_sorted l) hsort

/-!
## Claim theorems for the streaming bounded top-K core
-/

/-- C5: for all K ≥ 0 and any finite stream of n scored items, the finalized
top list has exactly min(K, n) items, each of whose score is ≥ the score of
every item not retained, and the bounded container never holds more than K
entries at any point during consumption (i.e. after any prefix). -/
theorem dirscan_topk_correct (K : Int) (hK : 0 ≤ K) (entries : List Entry) :
    ((compute_stats entries K).top.length : Int) = min K (entries.length : Int)
    ∧ (∀ h ∈ (compute_stats entries K).top, ∀ d ∈ entries,
        d ∉ (compute_stats entries K).top → d.size ≤ h.size)
    ∧ (∀ p s : List Entry, entries = p ++ s →
        ((p.foldl (offer K) []).length : Int) ≤ K) := by
  have hinv := heap_inv_foldl hK entries [] [] (heap_inv_nil hK)
  simp only [List.nil_append] at hinv
  obtain ⟨hsort, hlen, disc, hperm, hdisc⟩ := hinv
  have htop : (compute_stats entries K).top
      = (entries.foldl (offer K) []).mergeSort pres_le := by
    rw [compute_stats_eq]
  have htopperm : (compute_stats entries K).top ~ entries.foldl (offer K) [] := by
    rw [htop]
    exact List.mergeSort_perm _ _
  refine ⟨?_, ?_, ?_⟩
  · rw [htopperm.length_eq]
    exact hlen
  · intro h hh d hd hdtop
    have hh2 : h ∈ entries.foldl (offer K) [] := htopperm.mem_iff.mp hh
    have hd2 : d ∈ (entries.foldl (offer K) []) ++ disc := hperm.mem_iff.mp hd
    rw [List.mem_append] at hd2
    rcases hd2 with hd2 | hd2
    · exact absurd (htopperm.mem_iff.mpr hd2) hdtop
    · exact heap_le_size (hdisc d hd2 h hh2)
  · intro p s hps
    have hinvp := heap_inv_foldl hK p [] [] (heap_inv_nil hK)
    simp only [List.nil_append] at hinvp
    obtain ⟨_, hlenp, _⟩ := hinvp
    rw [hlenp]
    exact min_le_left _ _

/-- Witness for C5 at K = 1 over the single-entry stream `[("a", 5)]`. -/
theorem dirscan_topk_correct_witness :
    (0 : Int) ≤ 1
    ∧ (((compute_stats [⟨"a", 5⟩] 1).top.length : Int)
          = min 1 (([⟨"a", 5⟩] : List Entry).length : Int)
        ∧ (∀ h ∈ (compute_stats [⟨"a", 5⟩] 1).top, ∀ d ∈ ([⟨"a", 5⟩] : List Entry),
            d ∉ (compute_stats [⟨"a", 5⟩] 1).top → d.size ≤ h.size)
        ∧ (∀ p s : List Entry, [⟨"a", 5⟩] = p ++ s →
            ((p.foldl (offer 1) []).length : Int) ≤ 1)) :=
  ⟨by decide, dirscan_topk_correct 1 (by decide) [⟨"a", 5⟩]⟩

/-- C6: the finalized top list is ordered by descending score and, among
items sharing a score, by ascending secondary key; the K = 2 scenario over
scores [5, 5, 3] with keys ["b", "a", "c"] finalizes as [(5, "a"), (5, "b")]. -/
theorem dirscan_top_sorted :
    (∀ (entries : List Entry) (K : Int),
        (compute_stats entries K).top.Pairwise pres_rel)
    ∧ (compute_stats [⟨"b", 5⟩, ⟨"a", 5⟩, ⟨"c", 3⟩] 2).top
        = [⟨"a", 5⟩, ⟨"b", 5⟩] := by
  constructor
  · intro entries K
    rw [compute_stats_eq]
    exact mergeSort_pres_sorted _
  · have hlt_ab : ("a" : String) < "b" := by
      rw [String.lt_iff_toList_lt]
      decide
    have h1 : heap_le ⟨"a", 5⟩ ⟨"b", 5⟩ := Or.inr ⟨rfl, le_of_lt hlt_ab⟩
    have hngt : ¬ item_gt (⟨"c", 3⟩ : Entry) ⟨"a", 5⟩ := by
      simp [item_gt]
    have hfold : ([⟨"b", 5⟩, ⟨"a", 5⟩, ⟨"c", 3⟩] : List Entry).foldl (offer 2) []
        = [⟨"a", 5⟩, ⟨"b", 5⟩] := by
      simp [offer, heappush, heapreplace, h1, hngt]
    have hsorted : ([⟨"a", 5⟩, ⟨"b", 5⟩] : List Entry).Pairwise pres_rel := by
      refine List.pairwise_cons.mpr ⟨?_, List.pairwise_singleton _ _⟩
      intro x hx
      rw [List.mem_singleton] at hx
      subst hx
      exact Or.inr ⟨rfl, le_of_lt hlt_ab⟩
    rw [compute_stats_eq]
    show ((([⟨"b", 5⟩, ⟨"a", 5⟩, ⟨"c", 3⟩] : List Entry).foldl (offer 2) []).mergeSort pres_le)
      = [⟨"a", 5⟩, ⟨"b", 5⟩]
    rw [hfold]
    exact mergeSort_pres_eval (List.Perm.refl _) hsorted

/-- C7: with K = 0 nothing is retained (the finalized top list is empty) but
the count/sum accumulator still runs over every item: the count equals the
number of items presented and the total equals the sum of all scores. -/
theorem dirscan_zero_k (entries : List Entry) :
    (compute_stats entries 0).top = []
    ∧ (compute_stats entries 0).count = entries.length
    ∧ (compute_stats entries 0).total_bytes = (entries.map Entry.size).sum := by
  have hfold : ∀ l : List Entry, l.foldl (offer 0) [] = [] := by
    intro l
    induction l with
    | nil => rfl
    | cons e l ih =>
      rw [List.foldl_cons, show offer 0 [] e = [] from by simp [offer]]
      exact ih
  rw [compute_stats_eq]
  refine ⟨?_, rfl, rfl⟩
  rw [hfold]
  simp

/-- C3 counterexample: with K = 1 and two items tying on score 5 with keys
"a" then "b", the code retains ("b", 5) — the larger secondary key — whereas
the claim predicts the smaller key ("a", 5) is retained at the eviction
boundary. -/
theorem dirscan_tiebreak_counterexample :
    (compute_stats [⟨"a", 5⟩, ⟨"b", 5⟩] 1).top = [⟨"b", 5⟩]
    ∧ (compute_stats [⟨"a", 5⟩, ⟨"b", 5⟩] 1).top ≠ [⟨"a", 5⟩] := by
  have hgt : item_gt (⟨"b", 5⟩ : Entry) ⟨"a", 5⟩ := by
    refine Or.inr ⟨rfl, ?_⟩
    rw [String.lt_iff_toList_lt]
    decide
  have hfold : ([⟨"a", 5⟩, ⟨"b", 5⟩] : List Entry).foldl (offer 1) []
      = [⟨"b", 5⟩] := by
    simp [offer, heappush, heapreplace, hgt]
  have htop : (compute_stats [⟨"a", 5⟩, ⟨"b", 5⟩] 1).top = [⟨"b", 5⟩] := by
    rw [compute_stats_eq]
    show ((([⟨"a", 5⟩, ⟨"b", 5⟩] : List Entry).foldl (offer 1) []).mergeSort pres_le)
      = [⟨"b", 5⟩]
    rw [hfold]
    simp
  refine ⟨htop, by rw [htop]; decide⟩

/-- C3 amended: when the container is full, an offered item replaces the heap
root exactly when `(item.score, item.secondaryKey) > (root.score,
root.secondaryKey)` under plain lexicographic order — larger score wins and,
on equal score, the LARGER secondary key wins (so among items tying on score
at the eviction boundary, the larger secondary key is retained). -/
theorem dirscan_tiebreak_amended (K : Int) (root e : Entry) (rest : List Entry)
    (hK : 0 < K) (hlen : ¬ (((root :: rest).length : Nat) : Int) < K) :
    offer K (root :: rest) e
      = (if item_gt e root then heapreplace (root :: rest) e else root :: rest)
    ∧ (item_gt e root ↔ root.size < e.size ∨ (root.size = e.size ∧ root.path < e.path)) := by
  constructor
  · unfold offer
    rw [if_neg (by omega), if_neg hlen]
  · exact Iff.rfl

/-- Witness for C3's amended theorem: a full container of one item ("a", 5)
offered ("b", 5). -/
theorem dirscan_tiebreak_amended_witness :
    (0 : Int) < 1
    ∧ ¬ ((([⟨"a", 5⟩] : List Entry).length : Nat) : Int) < 1
    ∧ (offer 1 [⟨"a", 5⟩] ⟨"b", 5⟩
        = (if item_gt ⟨"b", 5⟩ ⟨"a", 5⟩ then heapreplace [⟨"a", 5⟩] ⟨"b", 5⟩
           else [⟨"a", 5⟩])) :=
  ⟨by decide, by decide,
    (dirscan_tiebreak_amended 1 ⟨"a", 5⟩ ⟨"b", 5⟩ [] (by decide) (by decide)).1⟩

/-- C8: an item whose `stat()` fails is skipped alone — iteration continues
with the rest of the stream, the failure never aborts the aggregation, and the
aggregate is computed over exactly the successfully scored items. -/
theorem dirscan_skip_failed_stat (pre post : List WalkItem) (w : WalkItem)
    (mode : String) (ms K : Int) (hw : w.stat = none) :
    iter_entries (pre ++ w :: post) mode ms = iter_entries (pre ++ post) mode ms
    ∧ compute_stats (iter_entries (pre ++ w :: post) mode ms) K
        = compute_stats (iter_entries (pre ++ post) mode ms) K
    ∧ ∀ walk : List WalkItem,
        iter_entries walk mode ms
          = iter_entries (walk.filter fun i => i.stat.isSome) mode ms := by
  have hwnone : entry_of mode ms w = none := by
    unfold entry_of
    rw [hw]
    simp
  have h1 : iter_entries (pre ++ w :: post) mode ms
      = iter_entries (pre ++ post) mode ms := by
    unfold iter_entries
    rw [List.filterMap_append, List.filterMap_append, List.filterMap_cons, hwnone]
  refine ⟨h1, by rw [h1], ?_⟩
  intro walk
  induction walk with
  | nil => rfl
  | cons x l ih =>
    rw [List.filter_cons]
    by_cases hx : x.stat.isSome
    · rw [if_pos hx]
      unfold iter_entries at ih ⊢
      rw [List.filterMap_cons, List.filterMap_cons, ih]
    · rw [if_neg hx]
      have hxnone : entry_of mode ms x = none := by
        unfold entry_of
        cases hstat : x.stat
        · simp
        · rw [hstat] at hx
          simp at hx
      unfold iter_entries at ih ⊢
      rw [List.filterMap_cons, hxnone]
      exact ih

/-- Witness for C8: a two-item walk whose middle item has a failed `stat`. -/
theorem dirscan_skip_failed_stat_witness :
    (⟨"bad", true, false, none⟩ : WalkItem).stat = none
    ∧ (iter_entries [⟨"ok", true, false, some 7⟩, ⟨"bad", true, false, none⟩]
          "file" 0
        = iter_entries [⟨"ok", true, false, some 7⟩] "file" 0
      ∧ compute_stats
          (iter_entries [⟨"ok", true, false, some 7⟩, ⟨"bad", true, false, none⟩]
            "file" 0) 10
          = compute_stats (iter_entries [⟨"ok", true, false, some 7⟩] "file" 0) 10
      ∧ ∀ walk : List WalkItem,
          iter_entries walk "file" 0
            = iter_entries (walk.filter fun i => i.stat.isSome) "file" 0) :=
  ⟨rfl, dirscan_skip_failed_stat [⟨"ok", true, false, some 7⟩] []
    ⟨"bad", true, false, none⟩ "file" 0 10 rfl⟩

/-!
## Destructuring lemmas for the merge steps
-/

theorem except_bind_ok {α β : Type} {x : Except ResolveError α}
    {f : α → Except ResolveError β} {b : β} :
    (x >>= f) = .ok b ↔ ∃ a, x = .ok a ∧ f a = .ok b := by
  cases x with
  | ok a =>
    rw [show (Except.ok a >>= f) = f a from rfl]
    simp
  | error e =>
    rw [show ((Except.error e : Except ResolveError α) >>= f)
        = Except.error e from rfl]
    simp

theorem nonempty_opt_some {o : Option String} {v : String}
    (h : nonempty_opt o = some v) : v ≠ "" := by
  unfold nonempty_opt at h
  split at h
  · split at h
    · exact absurd h (by simp)
    · rename_i w hw
      obtain rfl := Option.some.inj h
      exact hw
  · exact absurd h (by simp)

theorem get_env_ne_empty {n v : String} {ef os : List (String × String)}
    (h : get_env n ef os = some v) : v ≠ "" := by
  unfold get_env at h
  split at h
  · rename_i w hw
    obtain rfl := Option.some.inj h
    exact nonempty_opt_some hw
  · exact nonempty_opt_some h

theorem nonempty_opt_get_env {n v : String} {ef os : List (String × String)}
    (h : get_env n ef os = some v) : nonempty_opt (some v) = some v := by
  simp [nonempty_opt, get_env_ne_empty h]

theorem cfg_top_ok {a b : Args} {cfg : Cfg} {p : List String}
    (h : cfg_top a cfg p = .ok b) :
    b = { a with top := b.top } ∧ ("--top" ∈ p → b = a) := by
  unfold cfg_top at h
  split at h
  · obtain rfl := Except.ok.inj h
    exact ⟨rfl, fun _ => rfl⟩
  · rename_i hp
    split at h
    · rw [except_bind_ok] at h
      obtain ⟨n, hn, hb⟩ := h
      obtain rfl := Except.ok.inj hb
      exact ⟨rfl, fun hmem => absurd hmem hp⟩
    · obtain rfl := Except.ok.inj h
      exact ⟨rfl, fun _ => rfl⟩

theorem cfg_min_size_ok {a b : Args} {cfg : Cfg} {p : List String}
    (h : cfg_min_size a cfg p = .ok b) :
    b = { a with min_size := b.min_size } ∧ ("--min-size" ∈ p → b = a) := by
  unfold cfg_min_size at h
  split at h
  · obtain rfl := Except.ok.inj h
    exact ⟨rfl, fun _ => rfl⟩
  · rename_i hp
    split at h
    · rw [except_bind_ok] at h
      obtain ⟨n, hn, hb⟩ := h
      obtain rfl := Except.ok.inj hb
      exact ⟨rfl, fun hmem => absurd hmem hp⟩
    · obtain rfl := Except.ok.inj h
      exact ⟨rfl, fun _ => rfl⟩

theorem cfg_timeout_ok {a b : Args} {cfg : Cfg} {p : List String}
    (h : cfg_timeout a cfg p = .ok b) :
    b = { a with timeout := b.timeout } ∧ ("--timeout" ∈ p → b = a) := by
  unfold cfg_timeout at h
  split at h
  · obtain rfl := Except.ok.inj h
    exact ⟨rfl, fun _ => rfl⟩
  · rename_i hp
    split at h
    · rw [except_bind_ok] at h
      obtain ⟨n, hn, hb⟩ := h
      obtain rfl := Except.ok.inj hb
      exact ⟨rfl, fun hmem => absurd hmem hp⟩
    · obtain rfl := Except.ok.inj h
      exact ⟨rfl, fun _ => rfl⟩

theorem env_top_ok {a b : Args} {ef os : List (String × String)} {p : List String}
    (h : env_top a ef os p = .ok b) :
    b = { a with top := b.top }
    ∧ ("--top" ∈ p → b = a)
    ∧ (∀ v n, "--top" ∉ p → get_env "DIRSCAN_TOP" ef os = some v →
        py_int_exc v = .ok n → b.top = n) := by
  unfold env_top at h
  split at h
  · rename_i hp
    obtain rfl := Except.ok.inj h
    exact ⟨rfl, fun _ => rfl, fun v n hnp _ _ => absurd hp hnp⟩
  · rename_i hp
    split at h
    · rename_i v1 hv1
      rw [except_bind_ok] at h
      obtain ⟨n1, hn1, hb⟩ := h
      obtain rfl := Except.ok.inj hb
      refine ⟨rfl, fun hmem => absurd hmem hp, ?_⟩
      intro v n hnp hv hn
      rw [hv, nonempty_opt_get_env hv] at hv1
      obtain rfl := Option.some.inj hv1
      rw [hn1] at hn
      obtain rfl := Except.ok.inj hn
      rfl
    · rename_i hv1
      obtain rfl := Except.ok.inj h
      refine ⟨rfl, fun _ => rfl, ?_⟩
      intro v n hnp hv hn
      rw [hv, nonempty_opt_get_env hv] at hv1
      exact absurd hv1 (by simp)

theorem env_min_size_ok {a b : Args} {ef os : List (String × String)} {p : List String}
    (h : env_min_size a ef os p = .ok b) :
    b = { a with min_size := b.min_size }
    ∧ ("--min-size" ∈ p → b = a)
    ∧ (∀ v n, "--min-size" ∉ p → get_env "DIRSCAN_MIN_SIZE" ef os = some v →
        py_int_exc v = .ok n → b.min_size = n) := by
  unfold env_min_size at h
  split at h
  · rename_i hp
    obtain rfl := Except.ok.inj h
    exact ⟨rfl, fun _ => rfl, fun v n hnp _ _ => absurd hp hnp⟩
  · rename_i hp
    split at h
    · rename_i v1 hv1
      rw [except_bind_ok] at h
      obtain ⟨n1, hn1, hb⟩ := h
      obtain rfl := Except.ok.inj hb
      refine ⟨rfl, fun hmem => absurd hmem hp, ?_⟩
      intro v n hnp hv hn
      rw [hv, nonempty_opt_get_env hv] at hv1
      obtain rfl := Option.some.inj hv1
      rw [hn1] at hn
      obtain rfl := Except.ok.inj hn
      rfl
    · rename_i hv1
      obtain rfl := Except.ok.inj h
      refine ⟨rfl, fun _ => rfl, ?_⟩
      intro v n hnp hv hn
      rw [hv, nonempty_opt_get_env hv] at hv1
      exact absurd hv1 (by simp)

theorem env_timeout_ok {a b : Args} {ef os : List (String × String)} {p : List String}
    (h : env_timeout a ef os p = .ok b) :
    b = { a with timeout := b.timeout }
    ∧ ("--timeout" ∈ p → b = a)
    ∧ (∀ v q, "--timeout" ∉ p → get_env "DIRSCAN_TIMEOUT" ef os = some v →
        py_float_exc v = .ok q → b.timeout = q) := by
  unfold env_timeout at h
  split at h
  · rename_i hp
    obtain rfl := Except.ok.inj h
    exact ⟨rfl, fun _ => rfl, fun v q hnp _ _ => absurd hp hnp⟩
  · rename_i hp
    split at h
    · rename_i v1 hv1
      rw [except_bind_ok] at h
      obtain ⟨q1, hq1, hb⟩ := h
      obtain rfl := Except.ok.inj hb
      refine ⟨rfl, fun hmem => absurd hmem hp, ?_⟩
      intro v q hnp hv hq
      rw [hv, nonempty_opt_get_env hv] at hv1
      obtain rfl := Option.some.inj hv1
      rw [hq1] at hq
      obtain rfl := Except.ok.inj hq
      rfl
    · rename_i hv1
      obtain rfl := Except.ok.inj h
      refine ⟨rfl, fun _ => rfl, ?_⟩
      intro v q hnp hv hq
      rw [hv, nonempty_opt_get_env hv] at hv1
      exact absurd hv1 (by simp)

/-- Everything `apply_config` guarantees about its successful result: the
settings without a config key (`config`, `env_file`) are untouched and every
flag setting the user supplied on the CLI keeps its CLI value. -/
theorem apply_config_ok {a b : Args} {cfg : Cfg} {p : List String}
    (h : apply_config a cfg p = .ok b) :
    (b.config = a.config ∧ b.env_file = a.env_file)
    ∧ ("--mode" ∈ p → b.mode = a.mode)
    ∧ ("--top" ∈ p → b.top = a.top)
    ∧ ("--min-size" ∈ p → b.min_size = a.min_size)
    ∧ ("--timeout" ∈ p → b.timeout = a.timeout)
    ∧ ("--post" ∈ p → b.post = a.post)
    ∧ ("--out" ∈ p → b.out = a.out)
    ∧ ("--human" ∈ p → b.human = a.human)
    ∧ ("--verbose" ∈ p → b.verbose = a.verbose)
    ∧ ("--json" ∈ p → b.json = a.json)
    ∧ ("--relative" ∈ p → b.relative = a.relative) := by
  unfold apply_config at h
  rw [except_bind_ok] at h
  obtain ⟨a3, h3, h⟩ := h
  rw [except_bind_ok] at h
  obtain ⟨a4, h4, h⟩ := h
  rw [except_bind_ok] at h
  obtain ⟨a5, h5, h⟩ := h
  obtain rfl := Except.ok.inj h
  obtain ⟨e3, m3⟩ := cfg_top_ok h3
  obtain ⟨e4, m4⟩ := cfg_min_size_ok h4
  obtain ⟨e5, m5⟩ := cfg_timeout_ok h5
  refine ⟨⟨?_, ?_⟩, ?_, ?_, ?_, ?_, ?_, ?_, ?_, ?_, ?_, ?_⟩
  · rw [e5, e4, e3]
    simp [cfg_directory, cfg_mode, cfg_post, cfg_out, cfg_human, cfg_verbose,
      cfg_json, cfg_relative]
  · rw [e5, e4, e3]
    simp [cfg_directory, cfg_mode, cfg_post, cfg_out, cfg_human, cfg_verbose,
      cfg_json, cfg_relative]
  · intro hmem
    rw [e5, e4, e3]
    simp [cfg_directory, cfg_mode, cfg_post, cfg_out, cfg_human, cfg_verbose,
      cfg_json, cfg_relative, hmem]
  · intro hmem
    rw [e5, e4, m3 hmem]
    simp [cfg_directory, cfg_mode, cfg_post, cfg_out, cfg_human, cfg_verbose,
      cfg_json, cfg_relative]
  · intro hmem
    rw [e5, m4 hmem, e3]
    simp [cfg_directory, cfg_mode, cfg_post, cfg_out, cfg_human, cfg_verbose,
      cfg_json, cfg_relative]
  · intro hmem
    rw [m5 hmem, e4, e3]
    simp [cfg_directory, cfg_mode, cfg_post, cfg_out, cfg_human, cfg_verbose,
      cfg_json, cfg_relative]
  · intro hmem
    rw [e5, e4, e3]
    simp [cfg_directory, cfg_mode, cfg_post, cfg_out, cfg_human, cfg_verbose,
      cfg_json, cfg_relative, hmem]
  · intro hmem
    rw [e5, e4, e3]
    simp [cfg_directory, cfg_mode, cfg_post, cfg_out, cfg_human, cfg_verbose,
      cfg_json, cfg_relative, hmem]
  · intro hmem
    rw [e5, e4, e3]
    simp [cfg_directory, cfg_mode, cfg_post, cfg_out, cfg_human, cfg_verbose,
      cfg_json, cfg_relative, hmem]
  · intro hmem
    rw [e5, e4, e3]
    simp [cfg_directory, cfg_mode, cfg_post, cfg_out, cfg_human, cfg_verbose,
      cfg_json, cfg_relative, hmem]
  · intro hmem
    rw [e5, e4, e3]
    simp [cfg_directory, cfg_mode, cfg_post, cfg_out, cfg_human, cfg_verbose,
      cfg_json, cfg_relative, hmem]
  · intro hmem
    rw [e5, e4, e3]
    simp [cfg_directory, cfg_mode, cfg_post, cfg_out, cfg_human, cfg_verbose,
      cfg_json, cfg_relative, hmem]

/-- Everything `apply_env` guarantees about its successful result: flag
settings the user supplied on the CLI keep their CLI value (likewise the
positional directory when it came from the CLI and the config path when
`--config` was given), and every flag setting absent from `provided` but bound
to a (nonempty) value by `get_env` ends up with the coerced env value,
whatever value it held before. -/
theorem apply_env_ok {a b : Args} {ef os : List (String × String)}
    {p : List String} {dfc : Bool}
    (h : apply_env a ef os p dfc = .ok b) :
    ("--config" ∈ p → b.config = a.config)
    ∧ ("--mode" ∈ p → b.mode = a.mode)
    ∧ ("--top" ∈ p → b.top = a.top)
    ∧ ("--min-size" ∈ p → b.min_size = a.min_size)
    ∧ ("--timeout" ∈ p → b.timeout = a.timeout)
    ∧ ("--post" ∈ p → b.post = a.post)
    ∧ ("--out" ∈ p → b.out = a.out)
    ∧ ("--human" ∈ p → b.human = a.human)
    ∧ ("--verbose" ∈ p → b.verbose = a.verbose)
    ∧ ("--json" ∈ p → b.json = a.json)
    ∧ ("--relative" ∈ p → b.relative = a.relative)
    ∧ (dfc = true → b.directory = a.directory)
    ∧ (∀ v, "--mode" ∉ p → get_env "DIRSCAN_MODE" ef os = some v → b.mode = v)
    ∧ (∀ v n, "--top" ∉ p → get_env "DIRSCAN_TOP" ef os = some v →
        py_int_exc v = .ok n → b.top = n)
    ∧ (∀ v n, "--min-size" ∉ p → get_env "DIRSCAN_MIN_SIZE" ef os = some v →
        py_int_exc v = .ok n → b.min_size = n)
    ∧ (∀ v q, "--timeout" ∉ p → get_env "DIRSCAN_TIMEOUT" ef os = some v →
        py_float_exc v = .ok q → b.timeout = q)
    ∧ (∀ v, "--post" ∉ p → get_env "DIRSCAN_POST" ef os = some v → b.post = v)
    ∧ (∀ v, "--out" ∉ p → get_env "DIRSCAN_OUT" ef os = some v → b.out = some v)
    ∧ (∀ v, "--human" ∉ p → get_env "DIRSCAN_HUMAN" ef os = some v →
        b.human = parse_bool v)
    ∧ (∀ v, "--verbose" ∉ p → get_env "DIRSCAN_VERBOSE" ef os = some v →
        b.verbose = parse_bool v)
    ∧ (∀ v, "--json" ∉ p → get_env "DIRSCAN_JSON" ef os = some v →
        b.json = parse_bool v)
    ∧ (∀ v, "--relative" ∉ p → get_env "DIRSCAN_RELATIVE" ef os = some v →
        b.relative = parse_bool v)
    ∧ (∀ v, dfc = false → get_env "DIRSCAN_DIRECTORY" ef os = some v →
        b.directory = some v) := by
  unfold apply_env at h
  rw [except_bind_ok] at h
  obtain ⟨a4, h4, h⟩ := h
  rw [except_bind_ok] at h
  obtain ⟨a5, h5, h⟩ := h
  rw [except_bind_ok] at h
  obtain ⟨a6, h6, h⟩ := h
  obtain rfl := Except.ok.inj h
  obtain ⟨e4, m4, v4⟩ := env_top_ok h4
  obtain ⟨e5, m5, v5⟩ := env_min_size_ok h5
  obtain ⟨e6, m6, v6⟩ := env_timeout_ok h6
  refine ⟨?_, ?_, ?_, ?_, ?_, ?_, ?_, ?_, ?_, ?_, ?_, ?_, ?_, ?_, ?_, ?_, ?_,
    ?_, ?_, ?_, ?_, ?_, ?_⟩
  · intro hmem
    rw [e6, e5, e4]
    simp [env_config, env_directory, env_mode, env_post, env_out, env_human,
      env_verbose, env_json, env_relative, hmem]
  · intro hmem
    rw [e6, e5, e4]
    simp [env_config, env_directory, env_mode, env_post, env_out, env_human,
      env_verbose, env_json, env_relative, hmem]
  · intro hmem
    rw [e6, e5, m4 hmem]
    simp [env_config, env_directory, env_mode, env_post, env_out, env_human,
      env_verbose, env_json, env_relative]
  · intro hmem
    rw [e6, m5 hmem, e4]
    simp [env_config, env_directory, env_mode, env_post, env_out, env_human,
      env_verbose, env_json, env_relative]
  · intro hmem
    rw [m6 hmem, e5, e4]
    simp [env_config, env_directory, env_mode, env_post, env_out, env_human,
      env_verbose, env_json, env_relative]
  · intro hmem
    rw [e6, e5, e4]
    simp [env_config, env_directory, env_mode, env_post, env_out, env_human,
      env_verbose, env_json, env_relative, hmem]
  · intro hmem
    rw [e6, e5, e4]
    simp [env_config, env_directory, env_mode, env_post, env_out, env_human,
      env_verbose, env_json, env_relative, hmem]
  · intro hmem
    rw [e6, e5, e4]
    simp [env_config, env_directory, env_mode, env_post, env_out, env_human,
      env_verbose, env_json, env_relative, hmem]
  · intro hmem
    rw [e6, e5, e4]
    simp [env_config, env_directory, env_mode, env_post, env_out, env_human,
      env_verbose, env_json, env_relative, hmem]
  · intro hmem
    rw [e6, e5, e4]
    simp [env_config, env_directory, env_mode, env_post, env_out, env_human,
      env_verbose, env_json, env_relative, hmem]
  · intro hmem
    rw [e6, e5, e4]
    simp [env_config, env_directory, env_mode, env_post, env_out, env_human,
      env_verbose, env_json, env_relative, hmem]
  · intro hdfc
    rw [e6, e5, e4]
    simp [env_config, env_directory, env_mode, env_post, env_out, env_human,
      env_verbose, env_json, env_relative, hdfc]
  · intro v hnp hv
    rw [e6, e5, e4]
    simp [env_config, env_directory, env_mode, env_post, env_out, env_human,
      env_verbose, env_json, env_relative, hnp, hv, nonempty_opt,
      get_env_ne_empty hv]
  · intro v n hnp hv hn
    rw [e6, e5]
    simp only [env_post, env_out, env_human, env_verbose, env_json,
      env_relative]
    exact v4 v n hnp hv hn
  · intro v n hnp hv hn
    rw [e6]
    simp only [env_post, env_out, env_human, env_verbose, env_json,
      env_relative]
    exact v5 v n hnp hv hn
  · intro v q hnp hv hq
    simp only [env_post, env_out, env_human, env_verbose, env_json,
      env_relative]
    exact v6 v q hnp hv hq
  · intro v hnp hv
    simp [env_post, env_out, env_human, env_verbose, env_json, env_relative,
      hnp, hv, nonempty_opt, get_env_ne_empty hv]
  · intro v hnp hv
    simp [env_post, env_out, env_human, env_verbose, env_json, env_relative,
      hnp, hv, nonempty_opt, get_env_ne_empty hv]
  · intro v hnp hv
    simp [env_post, env_out, env_human, env_verbose, env_json, env_relative,
      hnp, hv]
  · intro v hnp hv
    simp [env_post, env_out, env_human, env_verbose, env_json, env_relative,
      hnp, hv]
  · intro v hnp hv
    simp [env_post, env_out, env_human, env_verbose, env_json, env_relative,
      hnp, hv]
  · intro v hnp hv
    simp [env_post, env_out, env_human, env_verbose, env_json, env_relative,
      hnp, hv]
  · intro v hdfc hv
    rw [e6, e5, e4]
    simp [env_config, env_directory, env_mode, env_post, env_out, env_human,
      env_verbose, env_json, env_relative, hdfc, hv, nonempty_opt,
      get_env_ne_empty hv]

/-!
## Claim theorems for the layered configuration resolver
-/

/-- Splitting `resolve_effective_args` into its two merge phases: a
successful resolution is `apply_env` applied to an intermediate record that is
either the config-path-adjusted CLI record itself (no config file) or the
result of a successful `apply_config` on it. -/
theorem resolve_split {args a' : Args} {argv : Option (List String)}
    {efc os : List (String × String)} {configs : String → Cfg}
    (hok : resolve_effective_args args argv efc os configs = .ok a') :
    ∃ mid : Args,
      apply_env mid
        (match args.env_file with | some _ => efc | none => []) os
        (parse_provided_options argv) args.directory.isSome = .ok a'
      ∧ (mid = resolve_config_path args
            (match args.env_file with | some _ => efc | none => []) os
            (parse_provided_options argv)
        ∨ ∃ cp, apply_config (resolve_config_path args
            (match args.env_file with | some _ => efc | none => []) os
            (parse_provided_options argv)) (configs cp)
            (parse_provided_options argv) = .ok mid) := by
  unfold resolve_effective_args at hok
  simp only [] at hok
  split at hok
  · rename_i cp heq
    rw [except_bind_ok] at hok
    obtain ⟨mid, hcfg, henv⟩ := hok
    exact ⟨mid, henv, Or.inr ⟨cp, hcfg⟩⟩
  · rw [except_bind_ok] at hok
    obtain ⟨mid, hmid, henv⟩ := hok
    obtain rfl := Except.ok.inj hmid
    exact ⟨_, henv, Or.inl rfl⟩

/-- C2: every setting whose flag the user typed (its name is in the
provenance set computed from the raw argv tokens) resolves to its
CLI-parsed value — neither the env source nor the file-config source can
override it, whatever they contain. -/
theorem dirscan_cli_precedence (args : Args) (argv : Option (List String))
    (efc os : List (String × String)) (configs : String → Cfg) (a' : Args)
    (hok : resolve_effective_args args argv efc os configs = .ok a') :
    ("--mode" ∈ parse_provided_options argv → a'.mode = args.mode)
    ∧ ("--top" ∈ parse_provided_options argv → a'.top = args.top)
    ∧ ("--min-size" ∈ parse_provided_options argv → a'.min_size = args.min_size)
    ∧ ("--timeout" ∈ parse_provided_options argv → a'.timeout = args.timeout)
    ∧ ("--post" ∈ parse_provided_options argv → a'.post = args.post)
    ∧ ("--out" ∈ parse_provided_options argv → a'.out = args.out)
    ∧ ("--human" ∈ parse_provided_options argv → a'.human = args.human)
    ∧ ("--verbose" ∈ parse_provided_options argv → a'.verbose = args.verbose)
    ∧ ("--json" ∈ parse_provided_options argv → a'.json = args.json)
    ∧ ("--relative" ∈ parse_provided_options argv → a'.relative = args.relative)
    ∧ ("--config" ∈ parse_provided_options argv → a'.config = args.config) := by
  obtain ⟨mid, henv, hmid⟩ := resolve_split hok
  obtain ⟨pc, pm, pt, pms, pto, pp, po, ph, pv, pj, pr, pd, vm2, vt2, vms2,
    vto2, vp2, vo2, vh2, vv2, vj2, vr2, vdir2⟩ := apply_env_ok henv
  have hq : ("--mode" ∈ parse_provided_options argv → mid.mode = args.mode)
      ∧ ("--top" ∈ parse_provided_options argv → mid.top = args.top)
      ∧ ("--min-size" ∈ parse_provided_options argv → mid.min_size = args.min_size)
      ∧ ("--timeout" ∈ parse_provided_options argv → mid.timeout = args.timeout)
      ∧ ("--post" ∈ parse_provided_options argv → mid.post = args.post)
      ∧ ("--out" ∈ parse_provided_options argv → mid.out = args.out)
      ∧ ("--human" ∈ parse_provided_options argv → mid.human = args.human)
      ∧ ("--verbose" ∈ parse_provided_options argv → mid.verbose = args.verbose)
      ∧ ("--json" ∈ parse_provided_options argv → mid.json = args.json)
      ∧ ("--relative" ∈ parse_provided_options argv → mid.relative = args.relative)
      ∧ ("--config" ∈ parse_provided_options argv → mid.config = args.config) := by
    rcases hmid with rfl | ⟨cp, hcfg⟩
    · refine ⟨fun hm => by simp [resolve_config_path],
        fun hm => by simp [resolve_config_path],
        fun hm => by simp [resolve_config_path],
        fun hm => by simp [resolve_config_path],
        fun hm => by simp [resolve_config_path],
        fun hm => by simp [resolve_config_path],
        fun hm => by simp [resolve_config_path],
        fun hm => by simp [resolve_config_path],
        fun hm => by simp [resolve_config_path],
        fun hm => by simp [resolve_config_path],
        fun hm => by simp [resolve_config_path, hm]⟩
    · obtain ⟨⟨qc, qe⟩, qm, qt, qms, qto, qp, qo, qh, qv, qj, qr⟩ :=
        apply_config_ok hcfg
      refine ⟨fun hm => by rw [qm hm]; simp [resolve_config_path],
        fun hm => by rw [qt hm]; simp [resolve_config_path],
        fun hm => by rw [qms hm]; simp [resolve_config_path],
        fun hm => by rw [qto hm]; simp [resolve_config_path],
        fun hm => by rw [qp hm]; simp [resolve_config_path],
        fun hm => by rw [qo hm]; simp [resolve_config_path],
        fun hm => by rw [qh hm]; simp [resolve_config_path],
        fun hm => by rw [qv hm]; simp [resolve_config_path],
        fun hm => by rw [qj hm]; simp [resolve_config_path],
        fun hm => by rw [qr hm]; simp [resolve_config_path],
        fun hm => by rw [qc]; simp [resolve_config_path, hm]⟩
  obtain ⟨km, kt, kms, kto, kp, ko, kh, kv, kj, kr, kc⟩ := hq
  exact ⟨fun hm => by rw [pm hm]; exact km hm,
    fun hm => by rw [pt hm]; exact kt hm,
    fun hm => by rw [pms hm]; exact kms hm,
    fun hm => by rw [pto hm]; exact kto hm,
    fun hm => by rw [pp hm]; exact kp hm,
    fun hm => by rw [po hm]; exact ko hm,
    fun hm => by rw [ph hm]; exact kh hm,
    fun hm => by rw [pv hm]; exact kv hm,
    fun hm => by rw [pj hm]; exact kj hm,
    fun hm => by rw [pr hm]; exact kr hm,
    fun hm => by rw [pc hm]; exact kc hm⟩

instance {α : Type} [DecidableEq α] : DecidableEq (Except ResolveError α) := fun x y =>
  match x, y with
  | .ok a, .ok b =>
      if h : a = b then .isTrue (by rw [h])
      else .isFalse (fun hc => h (Except.ok.inj hc))
  | .error e, .error f =>
      if h : e = f then .isTrue (by rw [h])
      else .isFalse (fun hc => h (Except.error.inj hc))
  | .ok _, .error _ => .isFalse (fun hc => Except.noConfusion hc)
  | .error _, .ok _ => .isFalse (fun hc => Except.noConfusion hc)

/-- C2 witness: CLI `--top 3` with env `DIRSCAN_TOP=2` resolves to top = 3. -/
theorem dirscan_cli_precedence_witness :
    resolve_effective_args { default_args with top := 3 } (some ["--top", "3"])
      [] [("DIRSCAN_TOP", "2")] (fun _ => [])
      = .ok { default_args with top := 3 }
    ∧ ("--top" ∈ parse_provided_options (some ["--top", "3"]))
    ∧ ({ default_args with top := 3 } : Args).top = 3 := by
  refine ⟨by decide, by decide, ?_⟩
  have h := (dirscan_cli_precedence { default_args with top := 3 }
    (some ["--top", "3"]) [] [("DIRSCAN_TOP", "2")] (fun _ => [])
    { default_args with top := 3 } (by decide)).2.1 (by decide)
  exact h.trans (by decide)

/-- C4: every flag setting absent from the provenance set but bound to a
nonempty value in the env source resolves to the (coerced) env value —
overriding whatever the file-config source put there, for every config map. -/
theorem dirscan_env_overrides_config (args : Args) (argv : Option (List String))
    (efc os : List (String × String)) (configs : String → Cfg) (a' : Args)
    (ef : List (String × String))
    (hef : ef = (match args.env_file with | some _ => efc | none => []))
    (hok : resolve_effective_args args argv efc os configs = .ok a') :
    (∀ v, "--mode" ∉ parse_provided_options argv →
        get_env "DIRSCAN_MODE" ef os = some v → a'.mode = v)
    ∧ (∀ v n, "--top" ∉ parse_provided_options argv →
        get_env "DIRSCAN_TOP" ef os = some v → py_int_exc v = .ok n → a'.top = n)
    ∧ (∀ v n, "--min-size" ∉ parse_provided_options argv →
        get_env "DIRSCAN_MIN_SIZE" ef os = some v → py_int_exc v = .ok n →
        a'.min_size = n)
    ∧ (∀ v q, "--timeout" ∉ parse_provided_options argv →
        get_env "DIRSCAN_TIMEOUT" ef os = some v → py_float_exc v = .ok q →
        a'.timeout = q)
    ∧ (∀ v, "--post" ∉ parse_provided_options argv →
        get_env "DIRSCAN_POST" ef os = some v → a'.post = v)
    ∧ (∀ v, "--out" ∉ parse_provided_options argv →
        get_env "DIRSCAN_OUT" ef os = some v → a'.out = some v)
    ∧ (∀ v, "--human" ∉ parse_provided_options argv →
        get_env "DIRSCAN_HUMAN" ef os = some v → a'.human = parse_bool v)
    ∧ (∀ v, "--verbose" ∉ parse_provided_options argv →
        get_env "DIRSCAN_VERBOSE" ef os = some v → a'.verbose = parse_bool v)
    ∧ (∀ v, "--json" ∉ parse_provided_options argv →
        get_env "DIRSCAN_JSON" ef os = some v → a'.json = parse_bool v)
    ∧ (∀ v, "--relative" ∉ parse_provided_options argv →
        get_env "DIRSCAN_RELATIVE" ef os = some v →
        a'.relative = parse_bool v) := by
  subst hef
  obtain ⟨mid, henv, -⟩ := resolve_split hok
  obtain ⟨pc, pm, pt, pms, pto, pp, po, ph, pv, pj, pr, pd, vm2, vt2, vms2,
    vto2, vp2, vo2, vh2, vv2, vj2, vr2, vdir2⟩ := apply_env_ok henv
  exact ⟨vm2, vt2, vms2, vto2, vp2, vo2, vh2, vv2, vj2, vr2⟩

/-- C4 witness: CLI omits `--top`, the config file sets top = 99, env sets
`DIRSCAN_TOP=2`; the resolved top is 2. -/
theorem dirscan_env_overrides_config_witness :
    resolve_effective_args { default_args with config := some "cfg" } (some [])
      [] [("DIRSCAN_TOP", "2")] (fun _ => [("top", CfgVal.num 99)])
      = .ok { default_args with config := some "cfg", top := 2 }
    ∧ ("--top" ∉ parse_provided_options (some []))
    ∧ get_env "DIRSCAN_TOP" [] [("DIRSCAN_TOP", "2")] = some "2"
    ∧ py_int_exc "2" = .ok 2
    ∧ ({ default_args with config := some "cfg", top := 2 } : Args).top = 2 := by
  refine ⟨by decide, by decide, by decide, by decide, ?_⟩
  have h := (dirscan_env_overrides_config
    { default_args with config := some "cfg" } (some []) []
    [("DIRSCAN_TOP", "2")] (fun _ => [("top", CfgVal.num 99)])
    { default_args with config := some "cfg", top := 2 } [] rfl
    (by decide)).2.1 "2" 2 (by decide) (by decide) (by decide)
  exact h

/-- C1 counterexample: the env source binds `DIRSCAN_JSON=maybe`, a string
outside the boolean vocabulary, yet resolution does not fail: it succeeds and
sets `json` to `True` (Python `bool("maybe")`); no `ConfigValueError` exists
in the code. -/
theorem dirscan_malformed_bool_counterexample :
    resolve_effective_args default_args (some []) [] [("DIRSCAN_JSON", "maybe")]
      (fun _ => []) = .ok { default_args with json := true }
    ∧ parse_bool "maybe" = true := by
  exact ⟨by decide, by decide⟩

/-- C1 amended: a boolean env override whose raw string is outside the fixed
vocabulary does not abort resolution; `parse_bool` falls back to Python
truthiness (`bool(v)`) of the stripped lowercased string, and the resolved
`json` equals `parse_bool` of the raw env value. -/
theorem dirscan_malformed_bool_amended (args : Args) (argv : Option (List String))
    (efc os : List (String × String)) (configs : String → Cfg) (a' : Args)
    (ef : List (String × String)) (v : String)
    (hef : ef = (match args.env_file with | some _ => efc | none => []))
    (hok : resolve_effective_args args argv efc os configs = .ok a')
    (hnp : "--json" ∉ parse_provided_options argv)
    (hv : get_env "DIRSCAN_JSON" ef os = some v) :
    a'.json = parse_bool v
    ∧ (∀ w : String,
        py_lower (py_strip w) ∉ (["1", "true", "yes", "y", "on"] : List String) →
        py_lower (py_strip w) ∉ (["0", "false", "no", "n", "off"] : List String) →
        parse_bool w = !(py_lower (py_strip w) == "")) := by
  subst hef
  obtain ⟨mid, henv, -⟩ := resolve_split hok
  obtain ⟨pc, pm, pt, pms, pto, pp, po, ph, pv, pj, pr, pd, vm2, vt2, vms2,
    vto2, vp2, vo2, vh2, vv2, vj2, vr2, vdir2⟩ := apply_env_ok henv
  refine ⟨vj2 v hnp hv, ?_⟩
  intro w h1 h2
  simp [parse_bool, h1, h2]

/-- C1 amended witness: `DIRSCAN_JSON=maybe` resolves json to
`parse_bool "maybe" = True`. -/
theorem dirscan_malformed_bool_amended_witness :
    resolve_effective_args default_args (some []) [] [("DIRSCAN_JSON", "maybe")]
      (fun _ => []) = .ok { default_args with json := true }
    ∧ ("--json" ∉ parse_provided_options (some []))
    ∧ get_env "DIRSCAN_JSON" [] [("DIRSCAN_JSON", "maybe")] = some "maybe"
    ∧ ({ default_args with json := true } : Args).json = parse_bool "maybe" := by
  refine ⟨by decide, by decide, by decide, ?_⟩
  exact (dirscan_malformed_bool_amended default_args (some []) []
    [("DIRSCAN_JSON", "maybe")] (fun _ => [])
    { default_args with json := true } [] "maybe" rfl (by decide) (by decide)
    (by decide)).1

/-- C9: `computeProvenance` returns exactly the option names whose raw tokens
begin with the option prefix, with any inline `=value` suffix split off; no
schema validation, total on every input, and empty/absent input yields the
empty set. -/
theorem parse_provided_options_correct :
    parse_provided_options none = []
    ∧ (∀ (argv : List String) (s : String),
        s ∈ parse_provided_options (some argv)
          ↔ ∃ t, t ∈ argv ∧ py_startswith "--" t = true
              ∧ s = py_split_head '=' t) := by
  constructor
  · rfl
  · intro argv s
    have key : ∀ (ts : List String) (acc : List String),
        s ∈ ts.foldl (fun provided token =>
            if py_startswith "--" token then
              provided.insert (py_split_head '=' token)
            else provided) acc
          ↔ s ∈ acc ∨ ∃ t, t ∈ ts ∧ py_startswith "--" t = true
              ∧ s = py_split_head '=' t := by
      intro ts
      induction ts with
      | nil =>
        intro acc
        simp
      | cons t ts ih =>
        intro acc
        rw [List.foldl_cons]
        by_cases ht : py_startswith "--" t
        · rw [if_pos ht, ih]
          simp only [List.mem_insert_iff, List.mem_cons]
          constructor
          · rintro ((rfl | hs) | ⟨t2, ht2, hst, rfl⟩)
            · exact Or.inr ⟨t, Or.inl rfl, ht, rfl⟩
            · exact Or.inl hs
            · exact Or.inr ⟨t2, Or.inr ht2, hst, rfl⟩
          · rintro (hs | ⟨t2, (rfl | ht2), hst, rfl⟩)
            · exact Or.inl (Or.inr hs)
            · exact Or.inl (Or.inl rfl)
            · exact Or.inr ⟨t2, ht2, hst, rfl⟩
        · rw [if_neg ht, ih]
          simp only [List.mem_cons]
          constructor
          · rintro (hs | ⟨t2, ht2, hst, rfl⟩)
            · exact Or.inl hs
            · exact Or.inr ⟨t2, Or.inr ht2, hst, rfl⟩
          · rintro (hs | ⟨t2, (rfl | ht2), hst, rfl⟩)
            · exact Or.inl hs
            · exact absurd hst ht
            · exact Or.inr ⟨t2, ht2, hst, rfl⟩
    have h := key argv []
    simpa [parse_provided_options] using h

/-- C9 witness: `--top=3` is recorded as provided (suffix split off),
an unrecognized `--bogus` is also recorded, a positional token is not. -/
theorem parse_provided_options_correct_witness :
    ("--top" ∈ parse_provided_options (some ["--top=3", "x", "--bogus"]))
    ∧ ("--bogus" ∈ parse_provided_options (some ["--top=3", "x", "--bogus"]))
    ∧ ("x" ∉ parse_provided_options (some ["--top=3", "x", "--bogus"])) := by
  refine ⟨?_, ?_, by decide⟩
  · exact (parse_provided_options_correct.2 ["--top=3", "x", "--bogus"]
      "--top").mpr ⟨"--top=3", by decide, by decide, by decide⟩
  · exact (parse_provided_options_correct.2 ["--top=3", "x", "--bogus"]
      "--bogus").mpr ⟨"--bogus", by decide, by decide, by decide⟩

/-- C10: a name bound to a nonempty string in the `.env`-file map wins without
consulting the OS environment; the OS environment is consulted exactly when
the `.env` map lacks the name or binds it to the empty string; absent-or-empty
in both yields `None`. -/
theorem get_env_precedence (name : String) (ef os : List (String × String)) :
    (∀ v, ef.lookup name = some v → v ≠ "" → get_env name ef os = some v)
    ∧ ((ef.lookup name = none ∨ ef.lookup name = some "") →
        get_env name ef os
          = (match os.lookup name with
             | some w => if w = "" then none else some w
             | none => none))
    ∧ ((ef.lookup name = none ∨ ef.lookup name = some "") →
        (os.lookup name = none ∨ os.lookup name = some "") →
        get_env name ef os = none) := by
  have hos : (ef.lookup name = none ∨ ef.lookup name = some "") →
      get_env name ef os
        = (match os.lookup name with
           | some w => if w = "" then none else some w
           | none => none) := by
    intro h
    unfold get_env
    have hef : nonempty_opt (ef.lookup name) = none := by
      rcases h with h | h <;> rw [h] <;> simp [nonempty_opt]
    rw [hef]
    cases ho : os.lookup name with
    | some w => simp [nonempty_opt]
    | none => simp [nonempty_opt]
  refine ⟨?_, hos, ?_⟩
  · intro v hv hne
    unfold get_env
    rw [hv]
    simp [nonempty_opt, hne]
  · intro h1 h2
    rw [hos h1]
    rcases h2 with h | h <;> rw [h] <;> simp

/-- C10 witness: `.env` nonempty wins; `.env` empty falls through to the OS
environment; empty in both yields `None`. -/
theorem get_env_precedence_witness :
    get_env "X" [("X", "1")] [("X", "2")] = some "1"
    ∧ get_env "X" [("X", "")] [("X", "2")] = some "2"
    ∧ get_env "X" [("X", "")] [("X", "")] = none := by
  refine ⟨(get_env_precedence "X" [("X", "1")] [("X", "2")]).1 "1" rfl
      (by decide), ?_, ?_⟩
  · have h := (get_env_precedence "X" [("X", "")] [("X", "2")]).2.1
      (Or.inr rfl)
    rw [h]
    decide
  · exact (get_env_precedence "X" [("X", "")] [("X", "")]).2.2 (Or.inr rfl)
      (Or.inr rfl)
